import Mathlib

/-!
Shallow embedding of the trust-boundary core of the MCP desktop server:
the token-based confirmation manager (src/safety.py), the security policy
evaluators (src/security_config.py) and the retry helper of the pooled HTTP
client (src/http_client.py), together with proofs of the behavioural
properties stated in the design document.

Conventions of the embedding:
- Wall-clock timestamps (`time.time()`) are modelled as integers passed
  explicitly to every operation that reads the clock.
- The asynchronous zero-argument callback of a pending action is modelled by
  the outcome of awaiting it: `Except.ok r` for a normal return of the string
  `r`, `Except.error e` for a raised exception whose rendered message is `e`.
- Python dict stores are modelled as association lists looked up by first
  match; deletion removes the key, matching dict semantics for the unique-key
  stores the code builds.
- `pathlib.Path.resolve` (symlink/relative canonicalisation) is modelled as
  the identity on already-canonical path strings: the path functions below
  receive the resolved string directly, exactly as the body of
  `is_path_allowed` does after line 72 of security_config.py.
- Python `str.lower` is modelled on its ASCII fragment via `Char.toLower`.
-/

/-! ## Character and string helpers (models of Python primitives) -/

/-- Model of Python `str.lower()` (ASCII fragment). -/
def lowerStr (s : String) : String :=
  String.mk (s.toList.map Char.toLower)

/-- Does the first list start with the second one? -/
def listStartsWith : List Char → List Char → Bool
  | _, [] => true
  | [], _ :: _ => false
  | c :: cs, p :: ps => c == p && listStartsWith cs ps

/-- Model of Python `str.startswith`. -/
def strStartsWith (s p : String) : Bool :=
  listStartsWith s.toList p.toList

/-- Model of Python `str.strip()` (ASCII whitespace). -/
def pyStrip (s : String) : String :=
  String.mk (((s.toList.dropWhile Char.isWhitespace).reverse.dropWhile Char.isWhitespace).reverse)

/-- Model of Python `str.split(sep)` for a one-character separator. -/
def splitOnChar (sep : Char) : List Char → List (List Char)
  | [] => [[]]
  | c :: rest =>
    let r := splitOnChar sep rest
    if c = sep then [] :: r else (c :: r.headD []) :: r.tail

/-- True when the character is neither of the two path separators that
`pathlib.PureWindowsPath` recognises. -/
def notSepB (c : Char) : Bool :=
  !(c == '/') && !(c == '\\')

/-- Non-empty, non-`"."` components of a path string, splitting on both `/`
and `\`, as `pathlib` does when parsing a Windows path. -/
def pathComponents (s : String) : List (List Char) :=
  (((splitOnChar '/' s.toList).map (splitOnChar '\\')).flatten).filter
    (fun c => !c.isEmpty && !(c == ['.']))

/-- Model of `pathlib.PurePath.name`: the last component of the path. -/
def pathName (s : String) : String :=
  String.mk ((pathComponents s).getLastD [])

/-- Index of the last `'.'` in a list of characters (Python `str.rfind`). -/
def rfindDot (cs : List Char) : Option Nat :=
  match cs.reverse.findIdx? (fun c => c == '.') with
  | some j => some (cs.length - 1 - j)
  | none => none

/-- Model of `pathlib.PurePath.suffix`: the extension of the final component,
including the leading dot; empty when the name has no internal dot. -/
def pathSuffix (s : String) : String :=
  let name := (pathName s).toList
  match rfindDot name with
  | some i => if 0 < i ∧ i + 1 < name.length then String.mk (name.drop i) else ""
  | none => ""

/-! ## Confirmation manager (src/safety.py) -/

/-- One pending destructive action, as stored in `_pending_actions`
(safety.py lines 59–64). -/
structure PendingAction where
  action_name : String
  description : String
  callback : Except String String
  created_at : Int

/-- The in-memory store `_pending_actions : dict[str, dict]`. -/
abbrev Store := List (String × PendingAction)

/-- Dict lookup: first binding of the key. -/
def lookupToken (t : String) : Store → Option PendingAction
  | [] => none
  | (k, a) :: rest => if k = t then some a else lookupToken t rest

/-- Dict deletion `del _pending_actions[token]`. -/
def removeToken (t : String) (s : Store) : Store :=
  s.filter (fun p => !(p.1 == t))

/-- Dict assignment `_pending_actions[token] = entry`. -/
def dictSet (k : String) (v : PendingAction) (s : Store) : Store :=
  (k, v) :: removeToken k s

/-- `TOKEN_EXPIRY_SECONDS = 300` (safety.py line 25). -/
def TOKEN_EXPIRY_SECONDS : Int := 300

/-- `_cleanup_expired_tokens` (safety.py lines 28–38): drop every entry whose
age strictly exceeds the expiry window. -/
def cleanup_expired_tokens (now : Int) (s : Store) : Store :=
  s.filter (fun p => !(decide (now - p.2.created_at > TOKEN_EXPIRY_SECONDS)))

/-- The structured payload serialised to JSON by `create_confirmation_token`
(safety.py lines 66–76). -/
structure ConfirmationPayload where
  status : String
  token : String
  action : String
  warning : String
  message : String
  expires_in_seconds : Int

/-- `create_confirmation_token` (safety.py lines 41–81). The fresh
`str(uuid.uuid4())` token is passed in explicitly; the function purges
expired entries, stores the new pending action with the current timestamp,
and returns the updated store with the payload. -/
def create_confirmation_token (now : Int) (token action_name description : String)
    (callback : Except String String) (store : Store) : Store × ConfirmationPayload :=
  let store1 := cleanup_expired_tokens now store
  let store2 := dictSet token ⟨action_name, description, callback, now⟩ store1
  (store2,
    { status := "confirmation_required"
      token := token
      action := action_name
      warning := "⚠️  DESTRUCTIVE ACTION: " ++ description
      message := "This action (" ++ action_name ++
        ") is destructive and may not be reversible. To proceed, call the confirm_action tool with token: "
        ++ token
      expires_in_seconds := TOKEN_EXPIRY_SECONDS })

/-- Observable outcome of `execute_confirmed_action`, one constructor per
return site of safety.py lines 93–131. -/
inductive ConfirmResult where
  | invalidToken
  | tokenExpired
  | success (action result : String)
  | actionError (action message : String)
deriving DecidableEq, Repr

/-- `execute_confirmed_action` (safety.py lines 84–131): look the token up;
absent tokens fail; expired tokens are deleted and fail; otherwise the entry
is deleted from the store first and the stored callback is then invoked, with
any exception converted into a structured error result. -/
def execute_confirmed_action (now : Int) (token : String) (store : Store) :
    Store × ConfirmResult :=
  match lookupToken token store with
  | none => (store, ConfirmResult.invalidToken)
  | some action =>
    if now - action.created_at > TOKEN_EXPIRY_SECONDS then
      (removeToken token store, ConfirmResult.tokenExpired)
    else
      let store1 := removeToken token store
      match action.callback with
      | Except.ok r => (store1, ConfirmResult.success action.action_name r)
      | Except.error e =>
          (store1, ConfirmResult.actionError action.action_name ("Action failed: " ++ e))

/-! ## Path policy evaluator (src/security_config.py lines 26–103) -/

/-- `BLOCKED_DIRECTORIES` (security_config.py lines 34–50), in the resolved
string form the comparison loop uses. -/
def BLOCKED_DIRECTORIES : List String :=
  ["C:\\Windows", "C:\\Program Files", "C:\\Program Files (x86)", "C:\\ProgramData",
   "/etc", "/usr", "/bin", "/sbin", "/boot", "/lib", "/lib64", "/var", "/root"]

/-- `BLOCKED_WRITE_EXTENSIONS` (security_config.py lines 53–58). -/
def BLOCKED_WRITE_EXTENSIONS : List String :=
  [".exe", ".bat", ".cmd", ".ps1", ".vbs", ".vbe", ".js", ".jse",
   ".wsf", ".wsh", ".msc", ".scr", ".pif", ".com", ".hta",
   ".dll", ".sys", ".drv",
   ".sh", ".bash", ".zsh", ".fish"]

/-- Verdict of the path evaluator; the constructor records which check fired,
abstracting the human-readable reason string built at each return site. -/
inductive PathVerdict where
  | allowed
  | systemDir (dir : String)
  | outsideAllowlist
  | executableExtension (ext : String)
deriving DecidableEq, Repr

/-- `is_path_allowed` (security_config.py lines 61–103), applied to the
already-resolved path string: case-insensitive string-prefix match against the
blocked directories, then (when the allowlist is non-empty) against the
allowed directories, then the lower-cased suffix check for writes. -/
def is_path_allowed (blockedDirs allowedDirs blockedExts : List String)
    (resolved_str : String) (for_write : Bool) : PathVerdict :=
  match blockedDirs.find? (fun b => strStartsWith (lowerStr resolved_str) (lowerStr b)) with
  | some b => PathVerdict.systemDir b
  | none =>
    if !allowedDirs.isEmpty
        && !(allowedDirs.any (fun a => strStartsWith (lowerStr resolved_str) (lowerStr a))) then
      PathVerdict.outsideAllowlist
    else if for_write then
      if lowerStr (pathSuffix resolved_str) ∈ blockedExts then
        PathVerdict.executableExtension (lowerStr (pathSuffix resolved_str))
      else PathVerdict.allowed
    else PathVerdict.allowed

/-! ## URL policy evaluator (src/security_config.py lines 111–175) -/

/-- Characters allowed in a URL scheme by `urllib.parse`. -/
def isSchemeChar (c : Char) : Bool :=
  c.isAlphanum || c == '+' || c == '-' || c == '.'

/-- Scheme splitting of `urllib.parse.urlsplit`: a leading `name:` is a scheme
when the name is non-empty, begins with a letter and uses scheme characters
only; the scheme is returned lower-cased. -/
def splitScheme (cs : List Char) : String × List Char :=
  let pre := cs.takeWhile (fun c => !(c == ':'))
  if pre.length < cs.length ∧ pre ≠ [] ∧ (pre.headD ' ').isAlpha ∧ pre.all isSchemeChar then
    (String.mk (pre.map Char.toLower), cs.drop (pre.length + 1))
  else ("", cs)

/-- Hostname extraction of `urllib.parse` `_hostinfo`/`hostname`: drop the
userinfo up to the last `@`, handle a bracketed IPv6 literal, strip the port,
lower-case; an empty hostname is reported as `none`. -/
def hostFromNetloc (netloc : List Char) : Option String :=
  let hostinfo := (netloc.reverse.takeWhile (fun c => !(c == '@'))).reverse
  let hostname :=
    if hostinfo.contains '[' then
      ((hostinfo.dropWhile (fun c => !(c == '['))).drop 1).takeWhile (fun c => !(c == ']'))
    else hostinfo.takeWhile (fun c => !(c == ':'))
  if hostname.isEmpty then none
  else some (String.mk (hostname.map Char.toLower))

/-- Model of `urllib.parse.urlparse` restricted to the two fields the code
reads: the (lower-cased) scheme and the optional hostname. The netloc exists
only after a literal `//`. -/
def urlparse (url : String) : String × Option String :=
  let (scheme, rest) := splitScheme url.toList
  if rest.take 2 = ['/', '/'] then
    let netloc := (rest.drop 2).takeWhile (fun c => !(c == '/') && !(c == '?') && !(c == '#'))
    (scheme, hostFromNetloc netloc)
  else (scheme, none)

/-- Numeric value of a decimal digit character. -/
def decVal (c : Char) : Nat := c.toNat - 48

/-- One octet of a dotted-quad IPv4 address, per `ipaddress._parse_octet`:
decimal digits only, at most three of them, no leading zero, value at most
255. -/
def parseOctet (cs : List Char) : Option Nat :=
  if cs.isEmpty then none
  else if !cs.all (fun c => c.isDigit) then none
  else if cs.length > 3 then none
  else if cs.length > 1 && cs.headD ' ' == '0' then none
  else
    let v := cs.foldl (fun a c => a * 10 + decVal c) 0
    if v > 255 then none else some v

/-- `ipaddress.IPv4Address` parsing: exactly four octets. -/
def parseIPv4 (cs : List Char) : Option Nat :=
  let parts := splitOnChar '.' cs
  if parts.length ≠ 4 then none
  else
    match parts.mapM parseOctet with
    | some vals => some (vals.foldl (fun a v => a * 256 + v) 0)
    | none => none

/-- Hexadecimal digit test of `ipaddress._parse_hextet`. -/
def isHexDigitChar (c : Char) : Bool :=
  c.isDigit || ('a' ≤ c && c ≤ 'f') || ('A' ≤ c && c ≤ 'F')

/-- Numeric value of a hexadecimal digit character. -/
def hexVal (c : Char) : Nat :=
  if c.isDigit then c.toNat - 48
  else if 'a' ≤ c ∧ c ≤ 'f' then c.toNat - 87
  else c.toNat - 55

/-- `ipaddress._parse_hextet`: one to four hexadecimal digits. -/
def parseHextet (cs : List Char) : Option Nat :=
  if cs.isEmpty then none
  else if !cs.all isHexDigitChar then none
  else if cs.length > 4 then none
  else some (cs.foldl (fun a c => a * 16 + hexVal c) 0)

/-- Lower-case hexadecimal digit character for a value below 16. -/
def hexDigitChar (n : Nat) : Char :=
  if n < 10 then Char.ofNat (48 + n) else Char.ofNat (87 + n)

/-- Fuelled auxiliary for `natToHexChars`. -/
def natToHexAux : Nat → Nat → List Char → List Char
  | 0, _, acc => acc
  | fuel + 1, n, acc =>
    if n = 0 then acc else natToHexAux fuel (n / 16) (hexDigitChar (n % 16) :: acc)

/-- Python `'%x' % n`: lower-case hexadecimal rendering without leading
zeros. -/
def natToHexChars (n : Nat) : List Char :=
  if n = 0 then ['0'] else natToHexAux (n + 1) n []

/-- Indices of the empty parts strictly between the first and last part, as
scanned by `ipaddress.IPv6Address._ip_int_from_string` to locate `::`. -/
def innerBlankIdx (parts : List (List Char)) : List Nat :=
  (List.range parts.length).filter
    (fun i => decide (0 < i) && decide (i + 1 < parts.length) && (parts.getD i []).isEmpty)

/-- Left fold of 16-bit groups into an address integer. -/
def foldHextets (ps : List (List Char)) (init : Nat) : Option Nat :=
  ps.foldlM (fun a p =>
    match parseHextet p with
    | some h => some (a * 65536 + h)
    | none => none) init

/-- Core of `ipaddress.IPv6Address._ip_int_from_string`: split on `:`, expand
an embedded dotted-quad tail, locate the single `::` gap, and fold the
hextets around it. -/
def parseIPv6core (cs : List Char) : Option Nat :=
  if cs.isEmpty then none
  else
    let parts0 := splitOnChar ':' cs
    if parts0.length < 3 then none
    else
      let lastP := parts0.getLastD []
      let partsOpt : Option (List (List Char)) :=
        if lastP.contains '.' then
          match parseIPv4 lastP with
          | some v4 =>
              some (parts0.dropLast ++ [natToHexChars (v4 / 65536), natToHexChars (v4 % 65536)])
          | none => none
        else some parts0
      match partsOpt with
      | none => none
      | some parts =>
        if parts.length > 9 then none
        else
          match innerBlankIdx parts with
          | _ :: _ :: _ => none
          | [i] =>
            let n := parts.length
            let hiOpt : Option Nat :=
              if (parts.headD []).isEmpty then (if i = 1 then some 0 else none) else some i
            let loOpt : Option Nat :=
              if (parts.getLastD []).isEmpty then
                (if n - i - 1 = 1 then some 0 else none)
              else some (n - i - 1)
            match hiOpt, loOpt with
            | some hi, some lo =>
              if hi + lo ≥ 8 then none
              else
                match foldHextets (parts.take hi) 0 with
                | some hiv =>
                    foldHextets (parts.drop (n - lo)) (hiv * 65536 ^ (8 - (hi + lo)))
                | none => none
            | _, _ => none
          | [] =>
            if parts.length ≠ 8 then none
            else if (parts.headD []).isEmpty then none
            else if (parts.getLastD []).isEmpty then none
            else foldHextets parts 0

/-- `ipaddress.IPv6Address` parsing including the `%zone` split of
`_split_scope_id`: a zone, when present, must be non-empty and contain no
further `%`. -/
def parseIPv6 (cs : List Char) : Option Nat :=
  if cs.contains '%' then
    let addr := cs.takeWhile (fun c => !(c == '%'))
    let zone := (cs.dropWhile (fun c => !(c == '%'))).drop 1
    if zone.isEmpty || zone.contains '%' then none else parseIPv6core addr
  else parseIPv6core cs

/-- A parsed literal IP address. -/
inductive IPAddr where
  | v4 (n : Nat)
  | v6 (n : Nat)
deriving DecidableEq, Repr

/-- `ipaddress.ip_address`: try IPv4, then IPv6. -/
def ip_address (s : String) : Option IPAddr :=
  match parseIPv4 s.toList with
  | some n => some (IPAddr.v4 n)
  | none =>
    match parseIPv6 s.toList with
    | some n => some (IPAddr.v6 n)
    | none => none

/-- CIDR membership for an IPv4 address integer. -/
def inRange4 (ip net plen : Nat) : Bool :=
  ip / 2 ^ (32 - plen) == net / 2 ^ (32 - plen)

/-- CIDR membership for an IPv6 address integer. -/
def inRange6 (ip net plen : Nat) : Bool :=
  ip / 2 ^ (128 - plen) == net / 2 ^ (128 - plen)

/-- Membership test against `_PRIVATE_IP_RANGES` (security_config.py lines
111–120); a version mismatch between address and network is `False`. -/
def isPrivateIP : IPAddr → Bool
  | IPAddr.v4 ip =>
      inRange4 ip (10 * 2 ^ 24) 8 ||
      inRange4 ip (172 * 2 ^ 24 + 16 * 2 ^ 16) 12 ||
      inRange4 ip (192 * 2 ^ 24 + 168 * 2 ^ 16) 16 ||
      inRange4 ip (127 * 2 ^ 24) 8 ||
      inRange4 ip (169 * 2 ^ 24 + 254 * 2 ^ 16) 16
  | IPAddr.v6 ip =>
      inRange6 ip 1 128 ||
      inRange6 ip (0xfc00 * 2 ^ 112) 7 ||
      inRange6 ip (0xfe80 * 2 ^ 112) 10

/-- `_BLOCKED_HOSTNAMES` (security_config.py lines 123–131). -/
def BLOCKED_HOSTNAMES : List String :=
  ["localhost", "localhost.localdomain", "127.0.0.1", "::1", "0.0.0.0",
   "metadata.google.internal", "169.254.169.254"]

/-- `ALLOWED_URL_SCHEMES` (security_config.py line 134). -/
def ALLOWED_URL_SCHEMES : List String := ["http", "https"]

/-- Verdict of the URL evaluator, one constructor per return site of
`is_url_safe`. -/
inductive UrlVerdict where
  | allowed
  | badScheme (scheme : String)
  | noHostname
  | blockedHostname (hostname : String)
  | privateIp (hostname : String)
deriving DecidableEq, Repr

/-- `is_url_safe` (security_config.py lines 137–175): scheme allowlist,
hostname presence, hostname blocklist, then private-range test for literal
IP hostnames. -/
def is_url_safe (url : String) : UrlVerdict :=
  let parsed := urlparse url
  let scheme := lowerStr parsed.1
  if scheme ∈ ALLOWED_URL_SCHEMES then
    match parsed.2 with
    | none => UrlVerdict.noHostname
    | some hostname =>
      if lowerStr hostname ∈ BLOCKED_HOSTNAMES then UrlVerdict.blockedHostname hostname
      else
        match ip_address hostname with
        | some ip =>
            if isPrivateIP ip then UrlVerdict.privateIp hostname else UrlVerdict.allowed
        | none => UrlVerdict.allowed
  else UrlVerdict.badScheme scheme

/-! ## Execution policy evaluator (src/security_config.py lines 183–253) -/

/-- `SAFE_APPLICATIONS` (security_config.py lines 183–194). -/
def SAFE_APPLICATIONS : List String :=
  ["notepad", "notepad.exe", "wordpad", "wordpad.exe",
   "calc", "calc.exe", "calculator",
   "chrome", "firefox", "msedge", "edge",
   "winword", "excel", "powerpnt", "outlook",
   "mspaint", "paint", "snip"]

/-- `SAFE_OPEN_EXTENSIONS` (security_config.py lines 197–209). -/
def SAFE_OPEN_EXTENSIONS : List String :=
  [".txt", ".md", ".pdf", ".doc", ".docx", ".xls", ".xlsx", ".ppt", ".pptx",
   ".rtf", ".odt", ".ods", ".odp",
   ".png", ".jpg", ".jpeg", ".gif", ".bmp", ".svg", ".webp", ".ico",
   ".mp3", ".mp4", ".wav", ".avi", ".mkv", ".webm", ".mov",
   ".html", ".htm",
   ".json", ".xml", ".csv", ".yaml", ".yml"]

/-- Verdict of the execution evaluator, one constructor per return site of
`is_execution_safe`. -/
inductive ExecVerdict where
  | allowed
  | blockedExtension (ext : String)
  | notRecognized
deriving DecidableEq, Repr

/-- `is_execution_safe` (security_config.py lines 214–253): URLs open in the
browser and pass; a known safe application name passes; otherwise a present
extension decides; a target with neither is denied by default. -/
def is_execution_safe (app_name_or_path : String) : ExecVerdict :=
  let target := pyStrip app_name_or_path
  let lower := lowerStr target
  if strStartsWith lower "http://" || strStartsWith lower "https://" then
    ExecVerdict.allowed
  else
    let base_name := lowerStr (pathName target)
    if base_name ∈ SAFE_APPLICATIONS ∨ lower ∈ SAFE_APPLICATIONS then
      ExecVerdict.allowed
    else
      let ext := lowerStr (pathSuffix target)
      if ext ≠ "" then
        if ext ∈ SAFE_OPEN_EXTENSIONS then ExecVerdict.allowed
        else ExecVerdict.blockedExtension ext
      else ExecVerdict.notRecognized

/-! ## Retry helper (src/http_client.py lines 93–175) -/

/-- Outcome of a single `client.request` attempt: a response with a status
code, a raised `httpx.TimeoutException`, or another network-level
exception. -/
inductive AttemptOutcome where
  | response (status : Nat)
  | timeoutExc (msg : String)
  | connError (msg : String)
deriving DecidableEq, Repr

/-- An error remembered in `last_exception` or propagated to the caller. -/
inductive RetryError where
  | httpStatusError (status : Nat)
  | timeoutExc (msg : String)
  | connError (msg : String)
deriving DecidableEq, Repr

/-- How `retry_request` terminates: a returned response, a raised exception,
or the failure of the final `assert last_exception is not None`. -/
inductive RetryResult where
  | success (status : Nat)
  | raised (e : RetryError)
  | assertFailed
deriving DecidableEq, Repr

/-- Observable trace of one `retry_request` call: how many attempts ran, how
many backoff sleeps were performed, and the final outcome. -/
structure RetryTrace where
  attemptsMade : Nat
  sleepsDone : Nat
  outcome : RetryResult
deriving DecidableEq, Repr

/-- `_RETRYABLE_STATUS_CODES` (http_client.py line 93). -/
def RETRYABLE_STATUS_CODES : List Nat := [429, 500, 502, 503, 504]

/-- Classification of one attempt by the loop body (http_client.py lines
127–166): `Sum.inl` ends the call immediately (return or re-raise), `Sum.inr`
records a retryable error in `last_exception`. `raise_for_status` raises for
any non-2xx status. -/
def classifyAttempt (o : AttemptOutcome) : RetryResult ⊕ RetryError :=
  match o with
  | AttemptOutcome.response s =>
    if s ∈ RETRYABLE_STATUS_CODES then Sum.inr (RetryError.httpStatusError s)
    else if 200 ≤ s ∧ s < 300 then Sum.inl (RetryResult.success s)
    else Sum.inl (RetryResult.raised (RetryError.httpStatusError s))
  | AttemptOutcome.timeoutExc m => Sum.inr (RetryError.timeoutExc m)
  | AttemptOutcome.connError m => Sum.inr (RetryError.connError m)

/-- True when the attempt outcome is retryable. -/
def isRetryable (o : AttemptOutcome) : Bool :=
  match classifyAttempt o with
  | Sum.inr _ => true
  | Sum.inl _ => false

/-- The retry loop (http_client.py lines 126–175). `attempts k` is the
outcome of the `k`-th request attempt (1-based). The first argument counts
the remaining loop iterations; between two consecutive attempts the loop
sleeps once (lines 168–171). -/
def retryAux (attempts : Nat → AttemptOutcome) :
    Nat → Nat → Nat → Option RetryError → RetryTrace
  | 0, made, sleeps, last =>
    ⟨made, sleeps,
      match last with
      | some e => RetryResult.raised e
      | none => RetryResult.assertFailed⟩
  | rem + 1, made, sleeps, _last =>
    match classifyAttempt (attempts (made + 1)) with
    | Sum.inl res => ⟨made + 1, sleeps, res⟩
    | Sum.inr e =>
      match rem with
      | 0 => ⟨made + 1, sleeps, RetryResult.raised e⟩
      | r + 1 => retryAux attempts (r + 1) (made + 1) (sleeps + 1) (some e)

/-- `retry_request` (http_client.py lines 96–175), abstracted to the trace of
attempts, sleeps and final outcome. -/
def retry_request (attempts : Nat → AttemptOutcome) (maxRetries : Nat) : RetryTrace :=
  retryAux attempts maxRetries 0 0 none

/-! ## Store lemmas -/

/-- Looking a token up after deleting it finds nothing. -/
theorem lookup_remove_self (t : String) (s : Store) :
    lookupToken t (removeToken t s) = none := by
  induction s with
  | nil => rfl
  | cons p rest ih =>
    simp only [removeToken, List.filter_cons] at *
    by_cases h : p.1 = t
    · simp [h, ih]
    · simp [h, lookupToken, ih]

/-- Deleting one token leaves lookups of any other token unchanged. -/
theorem lookup_remove_ne (t k : String) (hk : k ≠ t) (s : Store) :
    lookupToken k (removeToken t s) = lookupToken k s := by
  induction s with
  | nil => rfl
  | cons p rest ih =>
    obtain ⟨pk, pa⟩ := p
    have htk : ¬ t = k := fun hc => hk hc.symm
    simp only [removeToken, List.filter_cons] at *
    by_cases h : pk = t
    · subst h
      simp [lookupToken, htk, ih]
    · by_cases hp : pk = k
      · simp [h, lookupToken, hp, hk]
      · simp [h, lookupToken, hp, ih]

/-- A successful lookup exhibits a binding of the store. -/
theorem lookup_mem (k : String) (s : Store) (a : PendingAction)
    (h : lookupToken k s = some a) : (k, a) ∈ s := by
  induction s with
  | nil => simp [lookupToken] at h
  | cons p rest ih =>
    simp only [lookupToken] at h
    by_cases hp : p.1 = k
    · rw [if_pos hp] at h
      injection h with h2
      have : p = (k, a) := Prod.ext hp h2
      rw [← this]
      exact List.mem_cons_self p rest
    · rw [if_neg hp] at h
      exact List.mem_cons_of_mem p (ih h)

/-- Purging keeps every entry that is not yet expired. -/
theorem lookup_cleanup_fresh (now : Int) (k : String) (s : Store) (a : PendingAction)
    (h : lookupToken k s = some a) (hf : ¬ now - a.created_at > TOKEN_EXPIRY_SECONDS) :
    lookupToken k (cleanup_expired_tokens now s) = some a := by
  induction s with
  | nil => simp [lookupToken] at h
  | cons p rest ih =>
    obtain ⟨pk, pa⟩ := p
    simp only [lookupToken] at h
    by_cases hp : pk = k
    · rw [if_pos hp] at h
      injection h with h2
      subst h2
      subst hp
      simp [cleanup_expired_tokens, List.filter_cons, hf, lookupToken]
    · rw [if_neg hp] at h
      have ih' := ih h
      simp only [cleanup_expired_tokens, List.filter_cons] at *
      by_cases hq : now - pa.created_at > TOKEN_EXPIRY_SECONDS
      · simpa [hq] using ih'
      · simpa [hq, lookupToken, hp] using ih'

/-- After purging, every entry still found is within the expiry window. -/
theorem cleanup_fresh_only (now : Int) (k : String) (s : Store) (a : PendingAction)
    (h : lookupToken k (cleanup_expired_tokens now s) = some a) :
    ¬ now - a.created_at > TOKEN_EXPIRY_SECONDS := by
  have hmem := lookup_mem _ _ _ h
  have hpred := List.of_mem_filter hmem
  simpa using hpred

/-! ## Generic find? lemma -/

/-- When some element of the list satisfies the predicate, `find?` returns a
satisfying element of the list. -/
theorem find?_of_mem_pred {α : Type} (p : α → Bool) (l : List α) (b : α)
    (hb : b ∈ l) (hp : p b = true) :
    ∃ d, l.find? p = some d ∧ d ∈ l ∧ p d = true := by
  induction l with
  | nil => simp at hb
  | cons x xs ih =>
    by_cases hx : p x = true
    · exact ⟨x, List.find?_cons_of_pos _ hx, List.mem_cons_self x xs, hx⟩
    · have hb' : b ∈ xs := by
        rcases List.mem_cons.mp hb with rfl | hmem
        · exact absurd hp hx
        · exact hmem
      obtain ⟨d, hd1, hd2, hd3⟩ := ih hb'
      refine ⟨d, ?_, List.mem_cons_of_mem x hd2, hd3⟩
      rw [List.find?_cons_of_neg _ (by simpa using hx)]
      exact hd1

/-! ## Lower-casing and path-name lemmas -/

/-- Lower-casing fixes the forward slash. -/
theorem toLower_slash : Char.toLower '/' = '/' := by decide

/-- Lower-casing fixes the backslash. -/
theorem toLower_backslash : Char.toLower '\\' = '\\' := by decide

/-- Lower-casing fixes the dot. -/
theorem toLower_dot : Char.toLower '.' = '.' := by decide

/-- A character whose lower-case form is not a path separator is itself not a
path separator. -/
theorem notSepB_of_toLower (c : Char) (h : notSepB (Char.toLower c) = true) :
    notSepB c = true := by
  by_cases h1 : c = '/'
  · subst h1; rw [toLower_slash] at h; exact h
  · by_cases h2 : c = '\\'
    · subst h2; rw [toLower_backslash] at h; exact h
    · simp [notSepB, h1, h2]

/-- Splitting on a character that never occurs returns the whole list. -/
theorem splitOnChar_single (sep : Char) (cs : List Char)
    (h : ∀ c ∈ cs, ¬ c = sep) : splitOnChar sep cs = [cs] := by
  induction cs with
  | nil => rfl
  | cons c rest ih =>
    have hc : ¬ c = sep := h c (List.mem_cons_self c rest)
    have ih' := ih (fun x hx => h x (List.mem_cons_of_mem c hx))
    simp [splitOnChar, hc, ih']

/-- Rebuilding a string from its characters is the identity. -/
theorem mk_toList (s : String) : String.mk s.toList = s := rfl

/-- A separator-free, non-empty, non-`"."` string is its own path name. -/
theorem pathName_eq_self (s : String) (h1 : s.toList.all notSepB = true)
    (h2 : s.toList ≠ []) (h3 : s.toList ≠ ['.']) : pathName s = s := by
  have hall := List.all_eq_true.mp h1
  have hslash : ∀ c ∈ s.toList, ¬ c = '/' := by
    intro c hc
    have hns := hall c hc
    simp only [notSepB, Bool.and_eq_true, Bool.not_eq_true', beq_eq_false_iff_ne] at hns
    exact hns.1
  have hback : ∀ c ∈ s.toList, ¬ c = '\\' := by
    intro c hc
    have hns := hall c hc
    simp only [notSepB, Bool.and_eq_true, Bool.not_eq_true', beq_eq_false_iff_ne] at hns
    exact hns.2
  unfold pathName pathComponents
  rw [splitOnChar_single _ _ hslash]
  rw [List.map_singleton, splitOnChar_single _ _ hback]
  have hb1 : s.data.isEmpty = false := by simpa using h2
  have hb2 : (s.data == ['.']) = false := by simpa using h3
  simp [hb1, hb2]

/-- Every safe application name is separator-free, non-empty and not `"."`. -/
theorem apps_entry_shape :
    ∀ x ∈ SAFE_APPLICATIONS, x.toList.all notSepB = true ∧ x.toList ≠ [] ∧ x.toList ≠ ['.'] := by
  decide

/-- When the lower-cased target is itself a safe application name, so is its
lower-cased base name. -/
theorem lower_mem_apps_base (t : String) (h : lowerStr t ∈ SAFE_APPLICATIONS) :
    lowerStr (pathName t) ∈ SAFE_APPLICATIONS := by
  obtain ⟨ha, hne, hdot⟩ := apps_entry_shape _ h
  have hlist : (lowerStr t).toList = t.toList.map Char.toLower := rfl
  rw [hlist] at ha hne hdot
  have hall : t.toList.all notSepB = true := by
    rw [List.all_map] at ha
    rw [List.all_eq_true] at ha ⊢
    intro c hc
    exact notSepB_of_toLower c (ha c hc)
  have hne' : t.toList ≠ [] := by
    intro hc; rw [hc] at hne; simp at hne
  have hdot' : t.toList ≠ ['.'] := by
    intro hc; rw [hc] at hdot; simp [toLower_dot] at hdot
  rw [pathName_eq_self t hall hne' hdot']
  exact h

/-- Confirming a token that is absent from the store fails with the
invalid-token result and leaves the store unchanged. -/
theorem execute_absent (now : Int) (token : String) (store : Store)
    (h : lookupToken token store = none) :
    execute_confirmed_action now token store = (store, ConfirmResult.invalidToken) := by
  unfold execute_confirmed_action
  rw [h]

/-! ## Claim theorems -/

/-- C1: confirming a stored token removes its entry before the callback runs,
so a second confirm call for the same token — whatever the first call's
outcome (success, callback failure, or expiry) — finds the store without the
token and returns the invalid-or-expired-token error without modifying the
store; the token never returns to the pending state. -/
theorem confirm_single_use (now1 now2 : Int) (token : String) (store : Store)
    (a : PendingAction) (h : lookupToken token store = some a) :
    lookupToken token (execute_confirmed_action now1 token store).1 = none ∧
    execute_confirmed_action now2 token (execute_confirmed_action now1 token store).1 =
      ((execute_confirmed_action now1 token store).1, ConfirmResult.invalidToken) := by
  have hstore : (execute_confirmed_action now1 token store).1 = removeToken token store := by
    unfold execute_confirmed_action
    rw [h]
    by_cases he : now1 - a.created_at > TOKEN_EXPIRY_SECONDS
    · simp [he]
    · cases hcb : a.callback <;> simp [he, hcb]
  have hnone : lookupToken token (execute_confirmed_action now1 token store).1 = none := by
    rw [hstore]; exact lookup_remove_self token store
  exact ⟨hnone, execute_absent now2 token _ hnone⟩

/-- Checked instance of `confirm_single_use` on a concrete store. -/
theorem confirm_single_use_witness :
    lookupToken "t1" (execute_confirmed_action 5 "t1"
      [("t1", ⟨"delete_file", "rm x", Except.ok "done", 0⟩)]).1 = none ∧
    execute_confirmed_action 6 "t1" (execute_confirmed_action 5 "t1"
      [("t1", ⟨"delete_file", "rm x", Except.ok "done", 0⟩)]).1 =
      ((execute_confirmed_action 5 "t1"
        [("t1", ⟨"delete_file", "rm x", Except.ok "done", 0⟩)]).1,
        ConfirmResult.invalidToken) :=
  confirm_single_use 5 6 "t1" [("t1", ⟨"delete_file", "rm x", Except.ok "done", 0⟩)]
    ⟨"delete_file", "rm x", Except.ok "done", 0⟩ rfl

/-- C2: a stored token older than the 300-second window is removed on confirm
and yields the token-expired error without the callback running; an absent
token yields the invalid-or-expired-token error. -/
theorem confirm_expiry_and_absent (now : Int) (token : String) (store : Store) :
    (∀ a, lookupToken token store = some a →
      now - a.created_at > TOKEN_EXPIRY_SECONDS →
      execute_confirmed_action now token store =
        (removeToken token store, ConfirmResult.tokenExpired)) ∧
    (lookupToken token store = none →
      execute_confirmed_action now token store = (store, ConfirmResult.invalidToken)) := by
  constructor
  · intro a h he
    unfold execute_confirmed_action
    rw [h]
    simp [he]
  · intro h
    exact execute_absent now token store h

/-- Checked instance of `confirm_expiry_and_absent` at age 301 seconds. -/
theorem confirm_expiry_witness :
    execute_confirmed_action 301 "t2" [("t2", ⟨"kill_process", "d", Except.ok "r", 0⟩)] =
      (removeToken "t2" [("t2", ⟨"kill_process", "d", Except.ok "r", 0⟩)],
        ConfirmResult.tokenExpired) :=
  (confirm_expiry_and_absent 301 "t2" [("t2", ⟨"kill_process", "d", Except.ok "r", 0⟩)]).1
    ⟨"kill_process", "d", Except.ok "r", 0⟩ rfl (by decide)

/-- C3: requesting a confirmation only purges expired entries and inserts the
new pending action under the fresh token with the current timestamp; the
payload carries the token, the warning text and a 300-second expiry, and is
the same whatever callback is supplied — the callback is never invoked. -/
theorem create_token_frame (now : Int) (tok an d : String) (cb : Except String String)
    (store : Store) :
    lookupToken tok (create_confirmation_token now tok an d cb store).1 =
      some ⟨an, d, cb, now⟩ ∧
    (∀ k, k ≠ tok →
      lookupToken k (create_confirmation_token now tok an d cb store).1 =
        lookupToken k (cleanup_expired_tokens now store)) ∧
    (∀ k a, lookupToken k store = some a →
      ¬ now - a.created_at > TOKEN_EXPIRY_SECONDS →
      lookupToken k (cleanup_expired_tokens now store) = some a) ∧
    (∀ k a, lookupToken k (cleanup_expired_tokens now store) = some a →
      ¬ now - a.created_at > TOKEN_EXPIRY_SECONDS) ∧
    (create_confirmation_token now tok an d cb store).2 =
      { status := "confirmation_required", token := tok, action := an,
        warning := "⚠️  DESTRUCTIVE ACTION: " ++ d,
        message := "This action (" ++ an ++
          ") is destructive and may not be reversible. To proceed, call the confirm_action tool with token: "
          ++ tok,
        expires_in_seconds := TOKEN_EXPIRY_SECONDS } ∧
    (∀ cb2, (create_confirmation_token now tok an d cb2 store).2 =
      (create_confirmation_token now tok an d cb store).2) := by
  refine ⟨?_, ?_, ?_, ?_, rfl, fun cb2 => rfl⟩
  · simp [create_confirmation_token, dictSet, lookupToken]
  · intro k hk
    have hkt : ¬ tok = k := fun hc => hk hc.symm
    simp only [create_confirmation_token, dictSet, lookupToken]
    rw [if_neg hkt]
    exact lookup_remove_ne tok k hk _
  · intro k a h hf
    exact lookup_cleanup_fresh now k store a h hf
  · intro k a h
    exact cleanup_fresh_only now k store a h

/-- Checked instance of `create_token_frame` on the empty store. -/
theorem create_token_frame_witness :
    lookupToken "tok9" (create_confirmation_token 7 "tok9" "uninstall_application"
      "remove app" (Except.ok "ok") []).1 =
      some ⟨"uninstall_application", "remove app", Except.ok "ok", 7⟩ :=
  (create_token_frame 7 "tok9" "uninstall_application" "remove app" (Except.ok "ok") []).1

/-- C4: when the stored callback of a valid, unexpired token raises, confirm
returns the structured error result carrying the action name and the rendered
message instead of propagating, and the entry stays removed from the store. -/
theorem confirm_callback_failure (now : Int) (token : String) (store : Store)
    (an d e : String) (ct : Int)
    (hp : lookupToken token store = some ⟨an, d, Except.error e, ct⟩)
    (hexp : ¬ now - ct > TOKEN_EXPIRY_SECONDS) :
    execute_confirmed_action now token store =
      (removeToken token store, ConfirmResult.actionError an ("Action failed: " ++ e)) ∧
    lookupToken token (execute_confirmed_action now token store).1 = none := by
  have hmain : execute_confirmed_action now token store =
      (removeToken token store, ConfirmResult.actionError an ("Action failed: " ++ e)) := by
    unfold execute_confirmed_action
    rw [hp]
    simp [hexp]
  refine ⟨hmain, ?_⟩
  rw [hmain]
  exact lookup_remove_self token store

/-- Checked instance of `confirm_callback_failure` with a raising callback. -/
theorem confirm_callback_failure_witness :
    execute_confirmed_action 10 "t4" [("t4", ⟨"format_drive", "d", Except.error "disk gone", 0⟩)] =
      (removeToken "t4" [("t4", ⟨"format_drive", "d", Except.error "disk gone", 0⟩)],
        ConfirmResult.actionError "format_drive" ("Action failed: " ++ "disk gone")) ∧
    lookupToken "t4" (execute_confirmed_action 10 "t4"
      [("t4", ⟨"format_drive", "d", Except.error "disk gone", 0⟩)]).1 = none :=
  confirm_callback_failure 10 "t4" [("t4", ⟨"format_drive", "d", Except.error "disk gone", 0⟩)]
    "format_drive" "d" "disk gone" 0 rfl (by decide)

/-- C5: a path whose lower-cased resolved string extends a blocked root is
always reported as a blocked system directory, whatever the allowlist and
access mode — the blocked-roots check runs first and cannot be overridden. -/
theorem blocklist_precedence (bs as es : List String) (s : String) (w : Bool) (b : String)
    (hb : b ∈ bs) (hsw : strStartsWith (lowerStr s) (lowerStr b) = true) :
    ∃ d, d ∈ bs ∧ strStartsWith (lowerStr s) (lowerStr d) = true ∧
      is_path_allowed bs as es s w = PathVerdict.systemDir d := by
  obtain ⟨d, hd1, hd2, hd3⟩ :=
    find?_of_mem_pred (fun b => strStartsWith (lowerStr s) (lowerStr b)) bs b hb hsw
  refine ⟨d, hd2, hd3, ?_⟩
  unfold is_path_allowed
  rw [hd1]

/-- Checked instance of `blocklist_precedence`: `/etc/shadow` is blocked even
with `/etc` on the allowlist. -/
theorem blocklist_precedence_witness :
    ∃ d, d ∈ BLOCKED_DIRECTORIES ∧
      strStartsWith (lowerStr "/etc/shadow") (lowerStr d) = true ∧
      is_path_allowed BLOCKED_DIRECTORIES ["/etc"] BLOCKED_WRITE_EXTENSIONS
        "/etc/shadow" false = PathVerdict.systemDir d :=
  blocklist_precedence BLOCKED_DIRECTORIES ["/etc"] BLOCKED_WRITE_EXTENSIONS
    "/etc/shadow" false "/etc" (by decide) (by decide)

/-- C6: a path that passes the blocked-roots and allowed-roots checks and whose
lower-cased extension is a blocked write extension is blocked for writing and
allowed for reading. -/
theorem write_extension_block (bs as es : List String) (s : String)
    (hnb : ∀ b ∈ bs, strStartsWith (lowerStr s) (lowerStr b) = false)
    (hal : as.isEmpty = true ∨ ∃ a ∈ as, strStartsWith (lowerStr s) (lowerStr a) = true)
    (hext : lowerStr (pathSuffix s) ∈ es) :
    is_path_allowed bs as es s true =
      PathVerdict.executableExtension (lowerStr (pathSuffix s)) ∧
    is_path_allowed bs as es s false = PathVerdict.allowed := by
  have hfind : bs.find? (fun b => strStartsWith (lowerStr s) (lowerStr b)) = none := by
    apply List.find?_eq_none.mpr
    intro x hx
    simp [hnb x hx]
  have hcond : (!as.isEmpty &&
      !(as.any (fun a => strStartsWith (lowerStr s) (lowerStr a)))) = false := by
    rcases hal with h | ⟨a, ha1, ha2⟩
    · simp [h]
    · have hany : as.any (fun a => strStartsWith (lowerStr s) (lowerStr a)) = true :=
        List.any_eq_true.mpr ⟨a, ha1, ha2⟩
      simp [hany]
  constructor
  · unfold is_path_allowed
    rw [hfind]
    simp [hcond, hext]
  · unfold is_path_allowed
    rw [hfind]
    simp [hcond]

/-- Checked instance of `write_extension_block` on `C:/Users/x/evil.bat`. -/
theorem write_extension_block_witness :
    is_path_allowed BLOCKED_DIRECTORIES [] BLOCKED_WRITE_EXTENSIONS
      "C:/Users/x/evil.bat" true =
      PathVerdict.executableExtension (lowerStr (pathSuffix "C:/Users/x/evil.bat")) ∧
    is_path_allowed BLOCKED_DIRECTORIES [] BLOCKED_WRITE_EXTENSIONS
      "C:/Users/x/evil.bat" false = PathVerdict.allowed :=
  write_extension_block BLOCKED_DIRECTORIES [] BLOCKED_WRITE_EXTENSIONS "C:/Users/x/evil.bat"
    (by decide) (Or.inl (by decide)) (by decide)

/-- C7: the URL evaluator blocks any scheme other than http or https, blocks a
missing hostname, blocks the blocklisted hostnames case-insensitively, blocks
literal IP hostnames inside the private, loopback or link-local ranges, and
on the literal cases: the cloud metadata endpoint is blocked, an ftp URL is
blocked for its scheme, and a plain https URL is allowed. -/
theorem url_policy_blocks (url : String) :
    (lowerStr (urlparse url).1 ∉ ALLOWED_URL_SCHEMES →
      is_url_safe url = UrlVerdict.badScheme (lowerStr (urlparse url).1)) ∧
    (lowerStr (urlparse url).1 ∈ ALLOWED_URL_SCHEMES → (urlparse url).2 = none →
      is_url_safe url = UrlVerdict.noHostname) ∧
    (∀ h, lowerStr (urlparse url).1 ∈ ALLOWED_URL_SCHEMES → (urlparse url).2 = some h →
      lowerStr h ∈ BLOCKED_HOSTNAMES → is_url_safe url = UrlVerdict.blockedHostname h) ∧
    (∀ h ip, lowerStr (urlparse url).1 ∈ ALLOWED_URL_SCHEMES → (urlparse url).2 = some h →
      lowerStr h ∉ BLOCKED_HOSTNAMES → ip_address h = some ip → isPrivateIP ip = true →
      is_url_safe url = UrlVerdict.privateIp h) ∧
    is_url_safe "http://169.254.169.254/metadata" =
      UrlVerdict.blockedHostname "169.254.169.254" ∧
    is_url_safe "ftp://example.com" = UrlVerdict.badScheme "ftp" ∧
    is_url_safe "https://example.com" = UrlVerdict.allowed := by
  refine ⟨?_, ?_, ?_, ?_, by decide, by decide, by decide⟩
  · intro hsch
    rcases hu : urlparse url with ⟨sch, host⟩
    rw [hu] at hsch
    unfold is_url_safe
    rw [hu]
    exact if_neg hsch
  · intro hsch hnone
    rcases hu : urlparse url with ⟨sch, host⟩
    rw [hu] at hsch hnone
    unfold is_url_safe
    rw [hu]
    rw [if_pos hsch]
    have hh : host = none := hnone
    simp [hh]
  · intro h hsch hsome hblk
    rcases hu : urlparse url with ⟨sch, host⟩
    rw [hu] at hsch hsome
    unfold is_url_safe
    rw [hu]
    rw [if_pos hsch]
    have hh : host = some h := hsome
    simp [hh, hblk]
  · intro h ip hsch hsome hnb hip hpriv
    rcases hu : urlparse url with ⟨sch, host⟩
    rw [hu] at hsch hsome
    unfold is_url_safe
    rw [hu]
    rw [if_pos hsch]
    have hh : host = some h := hsome
    simp [hh, hnb, hip, hpriv]

/-- Checked instance of `url_policy_blocks`: a private-range IPv4 literal is
blocked. -/
theorem url_policy_blocks_witness :
    is_url_safe "http://10.0.0.8/admin" = UrlVerdict.privateIp "10.0.0.8" :=
  (url_policy_blocks "http://10.0.0.8/admin").2.2.2.1 "10.0.0.8" (IPAddr.v4 167772168)
    (by decide) (by decide) (by decide) (by decide) (by decide)

/-- C8: the execution evaluator allows exactly the URL-prefixed targets, the
targets whose case-insensitive basename is a safe application name, and the
targets with a safe-open extension; everything else is denied by default, so
`ransomware.scr` is blocked while `notepad` and `https://example.com` are
allowed. -/
theorem execution_policy (t : String) :
    (is_execution_safe t = ExecVerdict.allowed ↔
      strStartsWith (lowerStr (pyStrip t)) "http://" = true ∨
      strStartsWith (lowerStr (pyStrip t)) "https://" = true ∨
      lowerStr (pathName (pyStrip t)) ∈ SAFE_APPLICATIONS ∨
      lowerStr (pathSuffix (pyStrip t)) ∈ SAFE_OPEN_EXTENSIONS) ∧
    is_execution_safe "ransomware.scr" = ExecVerdict.blockedExtension ".scr" ∧
    is_execution_safe "notepad" = ExecVerdict.allowed ∧
    is_execution_safe "https://example.com" = ExecVerdict.allowed := by
  refine ⟨?_, by decide, by decide, by decide⟩
  unfold is_execution_safe
  by_cases h1 : (strStartsWith (lowerStr (pyStrip t)) "http://" ||
      strStartsWith (lowerStr (pyStrip t)) "https://") = true
  · rcases Bool.or_eq_true _ _ |>.mp h1 with hu | hu
    · simp [h1, hu]
    · simp [h1, hu]
  · have h1' : strStartsWith (lowerStr (pyStrip t)) "http://" = false ∧
        strStartsWith (lowerStr (pyStrip t)) "https://" = false := by
      constructor <;> revert h1 <;> cases strStartsWith (lowerStr (pyStrip t)) "http://" <;>
        cases strStartsWith (lowerStr (pyStrip t)) "https://" <;> simp
    rw [if_neg (by simp [h1'.1, h1'.2])]
    by_cases h2 : lowerStr (pathName (pyStrip t)) ∈ SAFE_APPLICATIONS ∨
        lowerStr (pyStrip t) ∈ SAFE_APPLICATIONS
    · have hbase : lowerStr (pathName (pyStrip t)) ∈ SAFE_APPLICATIONS := by
        rcases h2 with hb | hl
        · exact hb
        · exact lower_mem_apps_base (pyStrip t) hl
      simp [h2, h1'.1, h1'.2, hbase]
    · rw [if_neg h2]
      have hnb : lowerStr (pathName (pyStrip t)) ∉ SAFE_APPLICATIONS :=
        fun hc => h2 (Or.inl hc)
      by_cases h3 : lowerStr (pathSuffix (pyStrip t)) = ""
      · have hne : ("" : String) ∉ SAFE_OPEN_EXTENSIONS := by decide
        simp [h3, h1'.1, h1'.2, hnb, hne]
      · by_cases h4 : lowerStr (pathSuffix (pyStrip t)) ∈ SAFE_OPEN_EXTENSIONS
        · simp [h3, h4]
        · simp [h3, h4, h1'.1, h1'.2, hnb]

/-- Checked instance of `execution_policy`: a document path is allowed through
the safe-extension branch. -/
theorem execution_policy_witness :
    is_execution_safe "C:/docs/report.pdf" = ExecVerdict.allowed :=
  ((execution_policy "C:/docs/report.pdf").1).mpr
    (Or.inr (Or.inr (Or.inr (by decide))))

/-- When every attempt in the window is retryable, the loop runs all remaining
attempts, sleeps between consecutive ones, and raises the error recorded from
the final attempt. -/
theorem retryAux_exhaust (attempts : Nat → AttemptOutcome) :
    ∀ (rem made sleeps : Nat) (last : Option RetryError) (e : RetryError),
      1 ≤ rem →
      (∀ k, made + 1 ≤ k → k ≤ made + rem → isRetryable (attempts k) = true) →
      classifyAttempt (attempts (made + rem)) = Sum.inr e →
      retryAux attempts rem made sleeps last =
        ⟨made + rem, sleeps + rem - 1, RetryResult.raised e⟩ := by
  intro rem
  induction rem with
  | zero =>
    intro made sleeps last e h1
    omega
  | succ r ih =>
    intro made sleeps last e _ hall hlast
    have h1 : isRetryable (attempts (made + 1)) = true :=
      hall (made + 1) le_rfl (by omega)
    obtain ⟨e1, he1⟩ : ∃ e1, classifyAttempt (attempts (made + 1)) = Sum.inr e1 := by
      unfold isRetryable at h1
      cases hc : classifyAttempt (attempts (made + 1)) with
      | inl res => rw [hc] at h1; simp at h1
      | inr e1 => exact ⟨e1, rfl⟩
    cases r with
    | zero =>
      have hee : e1 = e := by
        rw [he1] at hlast
        injection hlast
      unfold retryAux
      rw [he1, hee]
      have h2 : made + (0 + 1) = made + 1 := by omega
      have h3 : sleeps + (0 + 1) - 1 = sleeps := by omega
      rw [h2, h3]
    | succ r2 =>
      unfold retryAux
      rw [he1]
      have hrec := ih (made + 1) (sleeps + 1) (some e1) e (by omega)
        (fun k hk1 hk2 => hall k (by omega) (by omega))
        (by
          have harg : made + 1 + (r2 + 1) = made + (r2 + 1 + 1) := by omega
          rw [harg]
          exact hlast)
      change retryAux attempts (r2 + 1) (made + 1) (sleeps + 1) (some e1) = _
      rw [hrec]
      have h2 : made + 1 + (r2 + 1) = made + (r2 + 1 + 1) := by omega
      have h3 : sleeps + 1 + (r2 + 1) - 1 = sleeps + (r2 + 1 + 1) - 1 := by omega
      rw [h2, h3]

/-- C9: when every attempt yields a retryable outcome — a retryable status,
a timeout, or another network-level error — the request runs exactly
`max_retries` attempts with a sleep between consecutive attempts, then raises
the error recorded from the last attempt. -/
theorem retry_exhaustion (attempts : Nat → AttemptOutcome) (maxRetries : Nat)
    (e : RetryError) (hmax : 1 ≤ maxRetries)
    (hall : ∀ k, 1 ≤ k → k ≤ maxRetries → isRetryable (attempts k) = true)
    (hlast : classifyAttempt (attempts maxRetries) = Sum.inr e) :
    retry_request attempts maxRetries =
      ⟨maxRetries, maxRetries - 1, RetryResult.raised e⟩ := by
  have hmain := retryAux_exhaust attempts maxRetries 0 0 none e hmax
    (fun k hk1 hk2 => hall k (by omega) (by omega))
    (by
      have h0 : 0 + maxRetries = maxRetries := by omega
      rw [h0]
      exact hlast)
  unfold retry_request
  rw [hmain]
  have h0 : 0 + maxRetries = maxRetries := by omega
  rw [h0]

/-- Checked instance of `retry_exhaustion`: a permanent HTTP 500 raises the
final 500 status error after exactly three attempts and two sleeps. -/
theorem retry_exhaustion_witness :
    retry_request (fun _ => AttemptOutcome.response 500) 3 =
      ⟨3, 2, RetryResult.raised (RetryError.httpStatusError 500)⟩ :=
  retry_exhaustion (fun _ => AttemptOutcome.response 500) 3
    (RetryError.httpStatusError 500) (by decide)
    (fun _ _ _ => rfl) (by decide)

/-- C10: the root matching of the path evaluator is a plain lower-cased
string-prefix test with no directory-boundary check: any path whose resolved
string merely extends a blocked root textually is blocked, `/etcetera` is
blocked by the root `/etc` although it is not inside that directory, and the
sibling `/home/user2` passes an allowlist containing only `/home/user`. -/
theorem path_string_prefix_no_boundary :
    (∀ (s : String) (as : List String) (w : Bool) (b : String),
      b ∈ BLOCKED_DIRECTORIES → strStartsWith (lowerStr s) (lowerStr b) = true →
      ∃ d, is_path_allowed BLOCKED_DIRECTORIES as BLOCKED_WRITE_EXTENSIONS s w =
        PathVerdict.systemDir d) ∧
    (strStartsWith "/etcetera" "/etc/" = false ∧ "/etcetera" ≠ "/etc" ∧
      is_path_allowed BLOCKED_DIRECTORIES [] BLOCKED_WRITE_EXTENSIONS "/etcetera" false =
        PathVerdict.systemDir "/etc") ∧
    (strStartsWith "/home/user2" "/home/user/" = false ∧ "/home/user2" ≠ "/home/user" ∧
      is_path_allowed BLOCKED_DIRECTORIES ["/home/user"] BLOCKED_WRITE_EXTENSIONS
        "/home/user2" false = PathVerdict.allowed) := by
  refine ⟨?_, by decide, by decide⟩
  intro s as w b hb hsw
  obtain ⟨d, hd1, _, _⟩ :=
    find?_of_mem_pred (fun b => strStartsWith (lowerStr s) (lowerStr b))
      BLOCKED_DIRECTORIES b hb hsw
  refine ⟨d, ?_⟩
  unfold is_path_allowed
  rw [hd1]

/-- Checked instance of `path_string_prefix_no_boundary`: `/usring` is blocked
because `/usr` is a textual prefix of it. -/
theorem path_string_prefix_witness :
    ∃ d, is_path_allowed BLOCKED_DIRECTORIES [] BLOCKED_WRITE_EXTENSIONS "/usring" false =
      PathVerdict.systemDir d :=
  path_string_prefix_no_boundary.1 "/usring" [] false "/usr" (by decide) (by decide)
